import Mathlib

/-!
Verification of `examples/gemini_hook.py` from the `mimi` repository.

The script has two functions:
  * `get_memory_protocol` runs the external `mimi` executable with the
    fixed argument `instruction` via `subprocess.run(..., check=True)`,
    returns the captured stdout on success, and converts every failure
    (non-zero exit, or any exception such as a missing executable) into
    the empty string after printing a message.
  * `configure_session_hook` takes a session-configuration dict, fetches
    the protocol text once, and if the text is non-empty appends it to
    the `system_instruction` entry (defaulting the current value to the
    empty string when the key is absent), separated by a blank line;
    otherwise it prints a warning and leaves the dict unchanged.

The embedding below models the Python dict as an association list with
dict lookup and dict assignment semantics, the behaviour of the external
process as an explicit `RunOutcome`, Python exceptions as `Except`, and
the observable effects (lines printed, calls to the fetcher) as a list
of events.
-/

/-- A Python value stored in the configuration dict. The script only ever
reads the value under the key `system_instruction` and interpolates it in
an f-string; `other` is an opaque non-string object carrying the text
that `str()` would render it to, which is what the f-string uses. -/
inductive Value where
  | str (s : String)
  | other (rendered : String)
deriving DecidableEq, Repr

/-- The text an f-string interpolation produces for a stored value:
a string is inserted as-is, any other object via its `str()` rendering. -/
def Value.toPyStr : Value → String
  | .str s => s
  | .other r => r

/-- A session-configuration record: a Python dict from string keys to
values, modelled as an association list in insertion order. -/
abbrev Config := List (String × Value)

/-- Python dict lookup (`d.get(k)` and `d[k]`): the value of the first
entry whose key equals `k`, if any. -/
def dictGet : Config → String → Option Value
  | [], _ => none
  | (k', v') :: rest, k => if k' = k then some v' else dictGet rest k

/-- Python dict assignment (`d[k] = v`): replace the value of the entry
with key `k` in place if present, otherwise append a new entry. -/
def dictSet : Config → String → Value → Config
  | [], k, v => [(k, v)]
  | (k', v') :: rest, k, v =>
      if k' = k then (k', v) :: rest else (k', v') :: dictSet rest k v

/-- An observable effect of the script: a line printed to stdout, or a
call to the protocol fetcher. -/
inductive Event where
  | printLine (msg : String)
  | fetchCall
deriving DecidableEq, Repr

/-- The fields of a completed `subprocess.run` call. -/
structure ProcResult where
  returncode : Int
  stdout : String
  stderr : String
deriving DecidableEq, Repr

/-- The behaviour of one invocation of the external process: either the
process ran to completion with the given exit status and captured output,
or `subprocess.run` raised some exception before completion (for example
`FileNotFoundError` for a missing executable), carrying its `str()`
rendering. -/
inductive RunOutcome where
  | completed (r : ProcResult)
  | raised (msg : String)
deriving DecidableEq, Repr

/-- Whether the invocation counts as a failure: any exception, or a
completed run with non-zero exit status. -/
def RunOutcome.isFailure : RunOutcome → Bool
  | .completed r => r.returncode != 0
  | .raised _ => true

/-- A Python exception that `subprocess.run(..., check=True)` can raise:
`subprocess.CalledProcessError` for a non-zero exit status, or any other
exception raised during execution, carrying its `str()` rendering. -/
inductive PyExc where
  | calledProcessError (returncode : Int) (cmd : List String) (stdout stderr : String)
  | otherExc (msg : String)
deriving DecidableEq, Repr

/-- Python `str()` of a list of strings (each element shown quoted), as
used when a command list is interpolated into an error message. This
models the CPython rendering for strings without special characters. -/
def pyStrOfList (xs : List String) : String :=
  "[" ++ String.intercalate ", " (xs.map (fun s => "\x27" ++ s ++ "\x27")) ++ "]"

/-- The `str()` rendering of an exception, as interpolated by the
f-strings in the except blocks. For `CalledProcessError` this models the
CPython message for a completed process. -/
def PyExc.toStr : PyExc → String
  | .calledProcessError rc cmd _ _ =>
      if rc < 0 then
        "Command " ++ pyStrOfList cmd ++ " died with unknown signal " ++ toString (-rc) ++ "."
      else
        "Command " ++ pyStrOfList cmd ++ " returned non-zero exit status " ++ toString rc ++ "."
  | .otherExc m => m

/-- `os.path.join(a, b)` for a relative second component. -/
def osPathJoin2 (a b : String) : String :=
  if a = "" then b else if a.endsWith "/" then a ++ b else a ++ "/" ++ b

/-- `MIMI_CLI_PATH = os.path.join(os.getcwd(), "bin", "mimi")`,
parametrised by the working directory the script was started in. -/
def MIMI_CLI_PATH (cwd : String) : String :=
  osPathJoin2 (osPathJoin2 cwd "bin") "mimi"

/-- `subprocess.run(cmd, capture_output=True, text=True, check=True)`
applied to a given behaviour of the external process: an exception during
execution propagates; a completed run with non-zero exit status raises
`CalledProcessError`; otherwise the completed result is returned. -/
def subprocessRunChecked (cmd : List String) : RunOutcome → Except PyExc ProcResult
  | .raised m => .error (.otherExc m)
  | .completed r =>
      if r.returncode != 0 then
        .error (.calledProcessError r.returncode cmd r.stdout r.stderr)
      else
        .ok r

/-- `get_memory_protocol`: run the `mimi` executable with the argument
`instruction`; on success return the captured stdout; catch
`CalledProcessError` and any other exception, print a message, and
return the empty string. The result pairs the returned string with the
lines printed. An `Except.error` result would mean an exception escaped
the function. -/
def get_memory_protocol (cwd : String) (o : RunOutcome) :
    Except PyExc (String × List Event) :=
  let cmd := [MIMI_CLI_PATH cwd, "instruction"]
  match subprocessRunChecked cmd o with
  | .ok result => .ok (result.stdout, [])
  | .error (.calledProcessError rc c so se) =>
      .ok ("", [.printLine ("Error retrieving memory protocol: "
                ++ (PyExc.calledProcessError rc c so se).toStr)])
  | .error (.otherExc m) =>
      .ok ("", [.printLine ("Unexpected error: " ++ m)])

/-- `configure_session_hook`: print the banner line, call the fetcher
once; if the protocol text is truthy (non-empty) append it to the
current `system_instruction` value (defaulting to the empty string) with
a blank line in between and store the result back; otherwise print a
warning and leave the record unchanged. Returns the record paired with
the events in program order. An `Except.error` result would mean an
exception escaped the hook. -/
def configure_session_hook (cwd : String) (o : RunOutcome) (session_config : Config) :
    Except PyExc (Config × List Event) :=
  match get_memory_protocol cwd o with
  | .error e => .error e
  | .ok (protocol, fetchEvs) =>
      let evs := Event.printLine " [Hook] Retrieving mimi-memory protocol..."
                   :: Event.fetchCall :: fetchEvs
      if protocol ≠ "" then
        let current_instruction :=
          ((dictGet session_config "system_instruction").getD (Value.str "")).toPyStr
        let updated := dictSet session_config "system_instruction"
          (Value.str (current_instruction ++ "\n\n" ++ protocol))
        .ok (updated,
          evs ++ [.printLine " [Hook] Protocol retrieved. Injecting into system instruction."])
      else
        .ok (session_config,
          evs ++ [.printLine " [Hook] Warning: Failed to retrieve protocol."])

/-- The string `get_memory_protocol` hands to its caller, when no
exception escapes it. -/
def fetchedText (cwd : String) (o : RunOutcome) : Option String :=
  (get_memory_protocol cwd o).toOption.map Prod.fst

/-- The configuration record the hook returns, when no exception escapes. -/
def hookConfig (cwd : String) (o : RunOutcome) (cfg : Config) : Option Config :=
  (configure_session_hook cwd o cfg).toOption.map Prod.fst

/-- The events the hook emits, when no exception escapes. -/
def hookEvents (cwd : String) (o : RunOutcome) (cfg : Config) : Option (List Event) :=
  (configure_session_hook cwd o cfg).toOption.map Prod.snd

/-- The `system_instruction` entry of the record the hook returns. -/
def hookInstruction (cwd : String) (o : RunOutcome) (cfg : Config) : Option (Option Value) :=
  (hookConfig cwd o cfg).map (fun c => dictGet c "system_instruction")

/-- The value the source reads with
`session_config.get("system_instruction", "")`, as interpolated text. -/
def currentInstructionOf (cfg : Config) : String :=
  ((dictGet cfg "system_instruction").getD (Value.str "")).toPyStr

/-- The protocol text the fetcher produces for each outcome: the captured
stdout on a clean exit, the empty string on any failure. Used only to
state `get_memory_protocol_eq`. -/
def gmpText : RunOutcome → String
  | .completed r => if r.returncode != 0 then "" else r.stdout
  | .raised _ => ""

/-- The lines the fetcher prints for each outcome. Used only to state
`get_memory_protocol_eq`. -/
def gmpEvents (cwd : String) : RunOutcome → List Event
  | .completed r =>
      if r.returncode != 0 then
        [.printLine ("Error retrieving memory protocol: "
          ++ (PyExc.calledProcessError r.returncode [MIMI_CLI_PATH cwd, "instruction"]
                r.stdout r.stderr).toStr)]
      else []
  | .raised m => [.printLine ("Unexpected error: " ++ m)]

theorem get_memory_protocol_eq (cwd : String) (o : RunOutcome) :
    get_memory_protocol cwd o = .ok (gmpText o, gmpEvents cwd o) := by
  cases o with
  | raised m => rfl
  | completed r =>
      by_cases h : r.returncode != 0 <;>
        simp [get_memory_protocol, subprocessRunChecked, gmpText, gmpEvents, h]

/-- The pure effect of the hook on the record, as a function of the
fetched text. Used only to state `configure_session_hook_eq`. -/
def hookPure (protocol : String) (cfg : Config) : Config :=
  if protocol ≠ "" then
    dictSet cfg "system_instruction"
      (Value.str (currentInstructionOf cfg ++ "\n\n" ++ protocol))
  else cfg

/-- The events the hook emits, as a function of the outcome. Used only
to state `configure_session_hook_eq`. -/
def hookLog (cwd : String) (o : RunOutcome) : List Event :=
  [.printLine " [Hook] Retrieving mimi-memory protocol...", .fetchCall]
    ++ gmpEvents cwd o
    ++ (if gmpText o ≠ "" then
          [.printLine " [Hook] Protocol retrieved. Injecting into system instruction."]
        else
          [.printLine " [Hook] Warning: Failed to retrieve protocol."])

theorem configure_session_hook_eq (cwd : String) (o : RunOutcome) (cfg : Config) :
    configure_session_hook cwd o cfg = .ok (hookPure (gmpText o) cfg, hookLog cwd o) := by
  by_cases h : gmpText o ≠ "" <;>
    simp [configure_session_hook, get_memory_protocol_eq, hookPure, hookLog,
      currentInstructionOf, h]

theorem fetchedText_eq (cwd : String) (o : RunOutcome) :
    fetchedText cwd o = some (gmpText o) := by
  simp [fetchedText, get_memory_protocol_eq, Except.toOption]

theorem hookConfig_eq (cwd : String) (o : RunOutcome) (cfg : Config) :
    hookConfig cwd o cfg = some (hookPure (gmpText o) cfg) := by
  simp [hookConfig, configure_session_hook_eq, Except.toOption]

theorem hookEvents_eq (cwd : String) (o : RunOutcome) (cfg : Config) :
    hookEvents cwd o cfg = some (hookLog cwd o) := by
  simp [hookEvents, configure_session_hook_eq, Except.toOption]

theorem dictGet_dictSet_self (cfg : Config) (k : String) (v : Value) :
    dictGet (dictSet cfg k v) k = some v := by
  induction cfg with
  | nil => simp [dictSet, dictGet]
  | cons p rest ih =>
      by_cases h : p.1 = k <;> simp [dictSet, dictGet, h, ih]

theorem dictGet_dictSet_ne (cfg : Config) (k : String) (v : Value)
    (k2 : String) (h : k2 ≠ k) :
    dictGet (dictSet cfg k v) k2 = dictGet cfg k2 := by
  have hk : ¬ k = k2 := fun e => h e.symm
  induction cfg with
  | nil => simp [dictSet, dictGet, hk]
  | cons p rest ih =>
      by_cases h1 : p.1 = k
      · have h2 : ¬ p.1 = k2 := fun e => hk (h1 ▸ e)
        simp [dictSet, dictGet, h1, h2, hk]
      · simp [dictSet, dictGet, h1, ih]

/-- C1: for every configuration record whose system_instruction field
holds a non-empty string `original`, and every non-empty protocol text T
returned by the fetcher, configure_session_hook returns a record whose
system_instruction field equals `original ++ "\n\n" ++ T`. -/
theorem hook_appends_to_existing_instruction
    (cwd : String) (o : RunOutcome) (cfg : Config) (original T : String)
    (hfield : dictGet cfg "system_instruction" = some (Value.str original))
    (horig : original ≠ "")
    (hT : fetchedText cwd o = some T) (hTne : T ≠ "") :
    hookInstruction cwd o cfg
      = some (some (Value.str (original ++ "\n\n" ++ T))) := by
  have hgT : gmpText o = T := by
    have h1 := fetchedText_eq cwd o
    rw [hT] at h1
    exact (Option.some.inj h1).symm
  simp [hookInstruction, hookConfig_eq, hgT, hookPure, hTne,
    currentInstructionOf, hfield, Value.toPyStr, dictGet_dictSet_self]

theorem hook_appends_to_existing_instruction_witness :
    dictGet [("system_instruction", Value.str "base")] "system_instruction"
        = some (Value.str "base") ∧
    ("base" : String) ≠ "" ∧
    fetchedText "/srv" (RunOutcome.completed ⟨0, "proto", ""⟩) = some "proto" ∧
    ("proto" : String) ≠ "" ∧
    hookInstruction "/srv" (RunOutcome.completed ⟨0, "proto", ""⟩)
        [("system_instruction", Value.str "base")]
      = some (some (Value.str ("base" ++ "\n\n" ++ "proto"))) :=
  ⟨by decide, by decide, by decide, by decide,
    hook_appends_to_existing_instruction "/srv" _ _ "base" "proto"
      (by decide) (by decide) (by decide) (by decide)⟩

/-- C2 counterexample: when the fetcher returns the empty string and the
record has no system_instruction field, the hook does not store
`"\n\n" ++ ""` there: it leaves the record unchanged, so the field stays
absent. -/
theorem hook_no_field_empty_text_counterexample :
    fetchedText "/srv" (RunOutcome.completed ⟨0, "", ""⟩) = some "" ∧
    dictGet ([] : Config) "system_instruction" = none ∧
    hookInstruction "/srv" (RunOutcome.completed ⟨0, "", ""⟩) ([] : Config)
      ≠ some (some (Value.str ("\n\n" ++ ""))) := by
  refine ⟨rfl, rfl, ?_⟩
  decide

/-- C2 amended: for every NON-EMPTY protocol text T returned by the
fetcher and every configuration record with no system_instruction field,
configure_session_hook returns a record whose system_instruction field
equals `"\n\n" ++ T`. -/
theorem hook_defaults_missing_instruction
    (cwd : String) (o : RunOutcome) (cfg : Config) (T : String)
    (hfield : dictGet cfg "system_instruction" = none)
    (hT : fetchedText cwd o = some T) (hTne : T ≠ "") :
    hookInstruction cwd o cfg = some (some (Value.str ("\n\n" ++ T))) := by
  have hgT : gmpText o = T := by
    have h1 := fetchedText_eq cwd o
    rw [hT] at h1
    exact (Option.some.inj h1).symm
  simp [hookInstruction, hookConfig_eq, hgT, hookPure, hTne,
    currentInstructionOf, hfield, Value.toPyStr, dictGet_dictSet_self,
    String.empty_append]

theorem hook_defaults_missing_instruction_witness :
    dictGet [("model", Value.other "gemini-2.0-flash")] "system_instruction" = none ∧
    fetchedText "/srv" (RunOutcome.completed ⟨0, "p", ""⟩) = some "p" ∧
    ("p" : String) ≠ "" ∧
    hookInstruction "/srv" (RunOutcome.completed ⟨0, "p", ""⟩)
        [("model", Value.other "gemini-2.0-flash")]
      = some (some (Value.str ("\n\n" ++ "p"))) :=
  ⟨by decide, by decide, by decide,
    hook_defaults_missing_instruction "/srv" _ _ "p"
      (by decide) (by decide) (by decide)⟩

/-- C3: whenever the fetcher returns the empty string,
configure_session_hook returns a configuration identical by value to its
input (no key added, removed, or modified) and the warning line is among
the lines it prints. -/
theorem hook_empty_text_leaves_config_unchanged
    (cwd : String) (o : RunOutcome) (cfg : Config)
    (h : fetchedText cwd o = some "") :
    hookConfig cwd o cfg = some cfg ∧
    Event.printLine " [Hook] Warning: Failed to retrieve protocol."
      ∈ (hookEvents cwd o cfg).getD [] := by
  have hgT : gmpText o = "" := by
    have h1 := fetchedText_eq cwd o
    rw [h] at h1
    exact (Option.some.inj h1).symm
  constructor
  · simp [hookConfig_eq, hgT, hookPure]
  · simp [hookEvents_eq, hookLog, hgT]

theorem hook_empty_text_leaves_config_unchanged_witness :
    fetchedText "/srv" (RunOutcome.completed ⟨1, "", ""⟩) = some "" ∧
    hookConfig "/srv" (RunOutcome.completed ⟨1, "", ""⟩)
        [("model", Value.str "gemini-2.0-flash")]
      = some [("model", Value.str "gemini-2.0-flash")] ∧
    Event.printLine " [Hook] Warning: Failed to retrieve protocol."
      ∈ (hookEvents "/srv" (RunOutcome.completed ⟨1, "", ""⟩)
          [("model", Value.str "gemini-2.0-flash")]).getD [] := by
  have h := hook_empty_text_leaves_config_unchanged "/srv"
    (RunOutcome.completed ⟨1, "", ""⟩) [("model", Value.str "gemini-2.0-flash")] rfl
  exact ⟨rfl, h.1, h.2⟩

/-- C4: no exception escapes get_memory_protocol, and on every failing
outcome of the external process (non-zero exit status or an execution
exception) the caller receives exactly the empty string. -/
theorem fetcher_absorbs_failures (cwd : String) (o : RunOutcome) :
    (get_memory_protocol cwd o).toOption.isSome = true ∧
    (o.isFailure = true → fetchedText cwd o = some "") := by
  constructor
  · simp [get_memory_protocol_eq, Except.toOption]
  · intro hf
    rw [fetchedText_eq]
    cases o with
    | raised m => rfl
    | completed r =>
        simp only [RunOutcome.isFailure] at hf
        simp [gmpText, hf]

theorem fetcher_absorbs_failures_witness :
    (get_memory_protocol "/srv" (RunOutcome.raised "FileNotFoundError")).toOption.isSome
        = true ∧
    fetchedText "/srv" (RunOutcome.raised "FileNotFoundError") = some "" :=
  ⟨(fetcher_absorbs_failures "/srv" (RunOutcome.raised "FileNotFoundError")).1,
    (fetcher_absorbs_failures "/srv" (RunOutcome.raised "FileNotFoundError")).2 rfl⟩

/-- C5: on every run of the external process that exits with status
zero, get_memory_protocol returns the captured standard output
unmodified, printing nothing. -/
theorem fetcher_returns_stdout_on_success
    (cwd : String) (r : ProcResult) (h : r.returncode = 0) :
    get_memory_protocol cwd (RunOutcome.completed r) = .ok (r.stdout, []) := by
  simp [get_memory_protocol, subprocessRunChecked, h]

theorem fetcher_returns_stdout_on_success_witness :
    (0 : Int) = 0 ∧
    get_memory_protocol "/srv" (RunOutcome.completed ⟨0, "  hello \n", "warn"⟩)
      = .ok ("  hello \n", []) :=
  ⟨rfl, fetcher_returns_stdout_on_success "/srv" ⟨0, "  hello \n", "warn"⟩ rfl⟩

/-- C6: for every configuration record and every fetcher result, every
key other than system_instruction maps to the same value in the output
of configure_session_hook as in its input. -/
theorem hook_preserves_other_keys
    (cwd : String) (o : RunOutcome) (cfg : Config) (k : String)
    (h : k ≠ "system_instruction") :
    (hookConfig cwd o cfg).map (fun c => dictGet c k) = some (dictGet cfg k) := by
  have hp : dictGet (hookPure (gmpText o) cfg) k = dictGet cfg k := by
    unfold hookPure
    split
    · exact dictGet_dictSet_ne cfg "system_instruction" _ k h
    · rfl
  simp [hookConfig_eq, hp]

theorem hook_preserves_other_keys_witness :
    ("model" : String) ≠ "system_instruction" ∧
    (hookConfig "/srv" (RunOutcome.completed ⟨0, "p", ""⟩)
        [("model", Value.str "gemini-2.0-flash"), ("system_instruction", Value.str "x")]).map
      (fun c => dictGet c "model")
      = some (dictGet
          [("model", Value.str "gemini-2.0-flash"), ("system_instruction", Value.str "x")]
          "model") :=
  ⟨by decide,
    hook_preserves_other_keys "/srv" (RunOutcome.completed ⟨0, "p", ""⟩)
      [("model", Value.str "gemini-2.0-flash"), ("system_instruction", Value.str "x")]
      "model" (by decide)⟩

/-- C7: end to end, when the external executable emits
`Remember: be concise.` on stdout and exits 0, the hook maps the record
with system_instruction `You are a helpful AI assistant.` to the record
whose sole entry is the concatenation with a blank line in between. -/
theorem hook_end_to_end_example (cwd : String) :
    hookConfig cwd (RunOutcome.completed ⟨0, "Remember: be concise.", ""⟩)
        [("system_instruction", Value.str "You are a helpful AI assistant.")]
      = some [("system_instruction",
          Value.str "You are a helpful AI assistant.\n\nRemember: be concise.")] := by
  rw [hookConfig_eq]
  rfl

/-- C8: for every configuration record and every behaviour of the
external process, no exception escapes configure_session_hook, and the
events it emits contain exactly one call to the protocol fetcher. -/
theorem hook_total_and_calls_fetcher_once
    (cwd : String) (o : RunOutcome) (cfg : Config) :
    (configure_session_hook cwd o cfg).toOption.isSome = true ∧
    ((hookEvents cwd o cfg).getD []).count Event.fetchCall = 1 := by
  constructor
  · simp [configure_session_hook_eq, Except.toOption]
  · rw [hookEvents_eq]
    cases o with
    | raised m => simp [hookLog, gmpEvents, gmpText, List.count_append, List.count_cons]
    | completed r =>
        by_cases h : r.returncode != 0 <;>
          simp [hookLog, gmpEvents, gmpText, h, List.count_append, List.count_cons] <;>
          split <;> simp [List.count_cons]

/-- C9: a fetched text that is non-empty but consists only of whitespace
(for example a single newline) is treated as a successful fetch: the
hook appends it to the instruction field and does not print the warning
line. Only the exactly-empty string selects the failure branch. -/
theorem hook_appends_whitespace_only_text
    (cwd : String) (o : RunOutcome) (cfg : Config) (T : String)
    (hT : fetchedText cwd o = some T) (hTne : T ≠ "")
    (hws : T.toList.all Char.isWhitespace = true) :
    hookInstruction cwd o cfg
      = some (some (Value.str (currentInstructionOf cfg ++ "\n\n" ++ T))) ∧
    Event.printLine " [Hook] Warning: Failed to retrieve protocol."
      ∉ (hookEvents cwd o cfg).getD [] := by
  have hgT : gmpText o = T := by
    have h1 := fetchedText_eq cwd o
    rw [hT] at h1
    exact (Option.some.inj h1).symm
  have hev : gmpEvents cwd o = [] := by
    cases o with
    | raised m => simp [gmpText] at hgT; exact absurd hgT.symm hTne
    | completed r =>
        by_cases h : r.returncode != 0
        · simp [gmpText, h] at hgT; exact absurd hgT.symm hTne
        · simp [gmpEvents, h]
  constructor
  · simp [hookInstruction, hookConfig_eq, hgT, hookPure, hTne, dictGet_dictSet_self]
  · rw [hookEvents_eq]
    simp [hookLog, hev, hgT, hTne]

theorem hook_appends_whitespace_only_text_witness :
    fetchedText "/srv" (RunOutcome.completed ⟨0, "\n", ""⟩) = some "\n" ∧
    ("\n" : String) ≠ "" ∧
    ("\n" : String).toList.all Char.isWhitespace = true ∧
    hookInstruction "/srv" (RunOutcome.completed ⟨0, "\n", ""⟩) ([] : Config)
      = some (some (Value.str (currentInstructionOf [] ++ "\n\n" ++ "\n"))) ∧
    Event.printLine " [Hook] Warning: Failed to retrieve protocol."
      ∉ (hookEvents "/srv" (RunOutcome.completed ⟨0, "\n", ""⟩) ([] : Config)).getD [] := by
  have h := hook_appends_whitespace_only_text "/srv"
    (RunOutcome.completed ⟨0, "\n", ""⟩) ([] : Config) "\n"
    rfl (by decide) (by decide)
  exact ⟨rfl, by decide, by decide, h.1, h.2⟩

/-- C10: the returned configuration record is a function of the input
record and the fetched protocol text alone: two behaviours of the
external process yielding the same fetched text yield the same returned
record. -/
theorem hook_deterministic_in_fetched_text
    (cwd1 cwd2 : String) (o1 o2 : RunOutcome) (cfg : Config)
    (h : fetchedText cwd1 o1 = fetchedText cwd2 o2) :
    hookConfig cwd1 o1 cfg = hookConfig cwd2 o2 cfg := by
  rw [fetchedText_eq, fetchedText_eq] at h
  rw [hookConfig_eq, hookConfig_eq, Option.some.inj h]

theorem hook_deterministic_in_fetched_text_witness :
    fetchedText "/srv" (RunOutcome.raised "boom")
      = fetchedText "/opt" (RunOutcome.completed ⟨1, "ignored", ""⟩) ∧
    hookConfig "/srv" (RunOutcome.raised "boom") [("model", Value.str "m")]
      = hookConfig "/opt" (RunOutcome.completed ⟨1, "ignored", ""⟩)
          [("model", Value.str "m")] :=
  ⟨rfl, hook_deterministic_in_fetched_text "/srv" "/opt" (RunOutcome.raised "boom")
    (RunOutcome.completed ⟨1, "ignored", ""⟩) [("model", Value.str "m")] rfl⟩
